import Mathlib

/-!
Verification of the PullPilot updater script (`updater.sh`).

The script is a sequential batch orchestrator: it loads a key/value
configuration file, acquires a non-blocking run lock, discovers Docker Compose
projects (explicit list file or filesystem scan with exclude patterns), and for
each project snapshots per-service image identifiers, pulls/recreates the
stack, snapshots again, classifies changed vs unchanged, runs a healthcheck,
and finally prunes, emails a summary and exits with a code reflecting whether
any project failed.

This file is a shallow embedding of that script.  External observations
(directory listings, container listings, image references, command exit
statuses) are inputs; the control flow, string handling and bookkeeping are
translated from the script line by line.  Line numbers in comments refer to
`updater.sh`.
-/

/-! ## Character-list string utilities

The script manipulates paths and configuration values with bash string
operations.  We model strings through their character lists so that every
operation is structurally recursive and kernel-reducible. -/

/-- Decides whether the list `p` is an initial segment of `l`. -/
def leadsWith : List Char → List Char → Bool
  | [], _ => true
  | _ :: _, [] => false
  | a :: as, b :: bs => a == b && leadsWith as bs

/-- Decides whether `pat` occurs as a contiguous subsequence of `l`.
Models the bash glob test `[[ "$s" == *"$pat"* ]]` (with `pat` quoted,
hence taken literally). -/
def containsSeq (pat : List Char) : List Char → Bool
  | [] => pat.isEmpty
  | c :: rest => leadsWith pat (c :: rest) || containsSeq pat rest

/-- Substring test on `String`s via their character data. -/
def strContains (s pat : String) : Bool :=
  containsSeq pat.data s.data

/-- Splits a character list on `'/'`, keeping empty segments
(`"/a//b"` gives `["", "a", "", "b"]` as segment lists). -/
def splitSegs : List Char → List (List Char)
  | [] => [[]]
  | c :: rest =>
    if c = '/' then [] :: splitSegs rest
    else
      match splitSegs rest with
      | [] => [[c]]
      | s :: ss => (c :: s) :: ss

/-- The base name of a path as computed by `basename`: trailing slashes are
stripped, then the last `/`-separated component is taken.  (The degenerate
input `"/"`, for which `basename` answers `"/"`, never occurs in the script's
project paths and is not modelled specially.) -/
def basename (s : String) : String :=
  let stripped := (s.data.reverse.dropWhile (fun c => c = '/')).reverse
  match (splitSegs stripped).getLast? with
  | some seg => ⟨seg⟩
  | none => ""

/-- Trims ASCII whitespace from both ends, as the project-list reader does with
`${line#...}` / `${line%...}` on `[[:space:]]` (updater.sh lines 397-398). -/
def trimStr (s : String) : String :=
  ⟨((s.data.dropWhile Char.isWhitespace).reverse.dropWhile Char.isWhitespace).reverse⟩

/-- Helper for `splitWs`: accumulates the current word (reversed) while
scanning. -/
def wordsAux : List Char → List Char → List (List Char)
  | [], acc => if acc.isEmpty then [] else [acc.reverse]
  | c :: rest, acc =>
    if c.isWhitespace then
      if acc.isEmpty then wordsAux rest []
      else acc.reverse :: wordsAux rest []
    else wordsAux rest (c :: acc)

/-- Splits a string on runs of whitespace into its (nonempty) words; models
`read -r -a ARR <<< "$s"` with default `IFS` (updater.sh line 80). -/
def splitWs (s : String) : List String :=
  (wordsAux s.data []).map (fun cs => ⟨cs⟩)

/-! ## Configuration (updater.sh lines 55-84)

All configuration values are bash strings; boolean settings are compared
against the literal token `true` at each use site, and we keep them as
strings to preserve that behavior. -/

/-- The run configuration after the defaults block (updater.sh lines 63-84).
Field names follow the script's variable names.  `EXCLUDE_PATTERNS_RAW` is the
unsplit pattern string; the split list is `excludePatterns`. -/
structure Config where
  BASE_DIR : String
  LOG_DIR : String
  LOCK_FILE : String
  EMAIL_TO : String
  EMAIL_FROM : String
  SUBJECT_PREFIX : String
  DOCKER_TIMEOUT : String
  PRUNE_ENABLED : String
  PRUNE_VOLUMES : String
  PRUNE_FILTER_UNTIL : String
  ATTACH_LOGS_ON : String
  QUIET_PULL : String
  PULL_POLICY : String
  PARALLEL_PULL : String
  DRY_RUN : String
  LOG_RETENTION_DAYS : String
  EXCLUDE_PATTERNS_RAW : String
  COMPOSE_PROJECTS_FILE : String
  SMTP_CMD : String
  SMTP_ACCOUNT : String
  SMTP_READ_ENVELOPE : String
deriving Repr, DecidableEq

/-- Applies a default exactly as `VAR=${VAR:-default}` does: the default is
used when the variable is unset *or* set to the empty string. -/
def withDefault (v : Option String) (d : String) : String :=
  match v with
  | some s => if s = "" then d else s
  | none => d

/-- Builds the configuration from the variable assignments the sourced
configuration file produced (`vals k = some v` when the file assigned `v` to
`k`), applying the defaults block of updater.sh lines 63-84. -/
def loadConfig (vals : String → Option String) : Config where
  BASE_DIR := withDefault (vals "BASE_DIR") "/srv/compose"
  LOG_DIR := withDefault (vals "LOG_DIR") "/var/log/docker-updater"
  LOCK_FILE := withDefault (vals "LOCK_FILE") "/var/lock/docker-updater.lock"
  EMAIL_TO := withDefault (vals "EMAIL_TO") ""
  EMAIL_FROM := withDefault (vals "EMAIL_FROM") "homelab@localhost"
  SUBJECT_PREFIX := withDefault (vals "SUBJECT_PREFIX") "[docker-updater]"
  DOCKER_TIMEOUT := withDefault (vals "DOCKER_TIMEOUT") "120"
  PRUNE_ENABLED := withDefault (vals "PRUNE_ENABLED") "false"
  PRUNE_VOLUMES := withDefault (vals "PRUNE_VOLUMES") "false"
  PRUNE_FILTER_UNTIL := withDefault (vals "PRUNE_FILTER_UNTIL") ""
  ATTACH_LOGS_ON := withDefault (vals "ATTACH_LOGS_ON") "changes"
  QUIET_PULL := withDefault (vals "QUIET_PULL") "true"
  PULL_POLICY := withDefault (vals "PULL_POLICY") "always"
  PARALLEL_PULL := withDefault (vals "PARALLEL_PULL") "0"
  DRY_RUN := withDefault (vals "DRY_RUN") "false"
  LOG_RETENTION_DAYS := withDefault (vals "LOG_RETENTION_DAYS") "14"
  EXCLUDE_PATTERNS_RAW := withDefault (vals "EXCLUDE_PATTERNS") ".git node_modules backup tmp"
  COMPOSE_PROJECTS_FILE := withDefault (vals "COMPOSE_PROJECTS_FILE") ""
  SMTP_CMD := withDefault (vals "SMTP_CMD") "msmtp"
  SMTP_ACCOUNT := withDefault (vals "SMTP_ACCOUNT") "default"
  SMTP_READ_ENVELOPE := withDefault (vals "SMTP_READ_ENVELOPE") "true"

/-- State of the file at `CONF_FILE` when the script starts.
`absent`: `[[ -f "$CONF_FILE" ]]` is false (no regular file at the path).
`unreadable`: a regular file exists (so `-f` succeeds) but cannot be read.
`readable vals`: a readable file whose sourcing produces the assignments
`vals`. -/
inductive ConfFileState where
  | absent
  | unreadable
  | readable (vals : String → Option String)

/-- Result of the configuration-loading prologue: either the script aborts
with an exit code, or it proceeds with a configuration, `warned` recording
whether the "using defaults" warning was printed. -/
inductive ConfigLoadResult where
  | fatal (exitCode : Nat)
  | loaded (warned : Bool) (cfg : Config)
deriving Repr, DecidableEq

/-- The configuration prologue (updater.sh lines 55-84) as a function of the
configuration file's state.
When `[[ -f "$CONF_FILE" ]]` fails the script warns and continues with every
default (line 59).  When the test succeeds the script runs
`source "$CONF_FILE"`; on a file that exists but cannot be read, `source`
fails with status 1 and, under the `set -Eeuo pipefail` prologue (line 8) with
no ERR trap installed, errexit terminates the script with that status before
any further work. -/
def loadConfigFile : ConfFileState → ConfigLoadResult
  | ConfFileState.absent => ConfigLoadResult.loaded true (loadConfig (fun _ => none))
  | ConfFileState.unreadable => ConfigLoadResult.fatal 1
  | ConfFileState.readable vals => ConfigLoadResult.loaded false (loadConfig vals)

/-- The split exclude-pattern list (updater.sh line 80:
`read -r -a EXCLUDE_PATTERNS <<< "$EXCLUDE_PATTERNS_RAW"`). -/
def excludePatterns (cfg : Config) : List String :=
  splitWs cfg.EXCLUDE_PATTERNS_RAW

/-! ## Per-project primitives (updater.sh lines 248-307) -/

/-- Selects the compose file among the files present in a directory, in the
fixed precedence order of `get_compose_file` (updater.sh lines 248-254). -/
def get_compose_file (filesPresent : List String) : Option String :=
  ["compose.yaml", "compose.yml", "docker-compose.yaml",
    "docker-compose.yml"].find? (fun f => filesPresent.contains f)

/-- Decides whether a directory is excluded, translating `is_excluded`
(updater.sh lines 257-264): a nonempty pattern `p` excludes `dir` when
`[[ "$dir" == *"/$p"* ]]` (the two-sided glob: `/p` occurs anywhere in the
path as a substring) or `[[ "$(basename "$dir")" == "$p" ]]` (with `$p`
quoted, an exact name comparison).  Patterns are taken literally, as the
script's default patterns contain no glob metacharacters. -/
def is_excluded (dir : String) (patterns : List String) : Bool :=
  patterns.any (fun p =>
    !(p == "") && (strContains dir ("/" ++ p) || basename dir == p))

/-- The comparison key `capture_images` prints for one service (updater.sh
lines 279-287): empty when the service has no containers, otherwise the
containers' image references joined by a space (`"${imgs[*]:-}"` under default
`IFS`; a failed `docker inspect` contributes an empty reference). -/
def captureKey (cids : List String) (imageOf : String → String) : String :=
  if cids.isEmpty then "" else String.intercalate " " (cids.map imageOf)

/-- The snapshot `capture_images` emits (updater.sh lines 268-289): one
`service|key` line per service reported by `config --services`, here returned
as the association list the caller reads back into a bash associative array.
`containersOf s` lists the running container IDs of service `s` and
`imageOf c` resolves container `c` to its image reference. -/
def capture_images (services : List String) (containersOf : String → List String)
    (imageOf : String → String) : List (String × String) :=
  services.map (fun s => (s, captureKey (containersOf s) imageOf))

/-- Looks a service up in a snapshot read into a bash associative array:
entries are assigned in order, later lines overwriting earlier ones
(updater.sh lines 474-476), and a missing service reads as the empty string
(`"${before[$k]:-}"`, line 543). -/
def lookupSnap (snap : List (String × String)) (s : String) : String :=
  (snap.foldl (fun acc kv => if kv.1 == s then some kv.2 else acc) none).getD ""

/-- The change test of updater.sh lines 541-544: iterate over the keys of the
`after` array and flag a change whenever the `before` and `after` values (a
missing key reading as empty) differ. -/
def computeChanged (before after : List (String × String)) : Bool :=
  (after.map Prod.fst).any (fun k => !(lookupSnap before k == lookupSnap after k))

/-- One container's state as `docker inspect` reports it inside
`healthcheck_project` (updater.sh lines 301-302): `hc` is the output of the
health format (`"none"` when the container defines no healthcheck, or when
inspect itself fails) and `status` the run-state (`"unknown"` when inspect
fails). -/
structure Container where
  hc : String
  status : String
deriving Repr, DecidableEq

/-- The per-container requirement of updater.sh lines 303-304: a container
with a healthcheck must report `healthy`; one without must be `running`. -/
def containerOk (c : Container) : Bool :=
  if c.hc != "none" && c.hc != "healthy" then false
  else if c.hc == "none" && c.status != "running" then false
  else true

/-- `healthcheck_project` (updater.sh lines 292-307) as a function of the
project's container listing: `none` when `ps -q` could not be read (the
`if ! mapfile` guard, line 294), `some []` when the listing is empty (line
298, an explicit failure), otherwise every container must satisfy
`containerOk`. -/
def healthcheck_project : Option (List Container) → Bool
  | none => false
  | some [] => false
  | some (c :: cs) => (c :: cs).all containerOk

/-! ## Project discovery (updater.sh lines 392-433) -/

/-- Parses the explicit project-list file (updater.sh lines 396-401): each
line is whitespace-trimmed; blank lines and lines starting with `#` are
skipped; the rest are project directories in file order. -/
def parseProjectLines (lines : List String) : List String :=
  lines.filterMap (fun l =>
    let t := trimStr l
    if t == "" || leadsWith ['#'] t.data then none else some t)

/-- Filesystem-scan discovery, read-loop side (updater.sh lines 427-430):
`allDirs` is the directory listing the external `find` invocation (lines
406-425) prints — an observation of the tool, already reflecting `find`'s own
`-path "*/pat"` subtree pruning, which `find` performs with fnmatch glob
semantics on the unquoted pattern.  The script's loop then applies
`is_excluded "$d" && continue` to each printed directory, so the collected
candidates are exactly the printed directories not rejected by
`is_excluded`.  For patterns free of glob metacharacters (the default
patterns are) `find`'s pruning is redundant: every path it removes contains
`/pat` literally and is rejected by `is_excluded` as well (see
`find_prune_subsumed`); a pattern containing metacharacters can make `find`
prune additional directories, which this model accounts for through
`allDirs` being `find`'s output. -/
def scanProjects (allDirs : List String) (patterns : List String) : List String :=
  allDirs.filter (fun d => !(is_excluded d patterns))

/-- The runtime observations the external tools provide for one project
directory.  `files` are the directory entries relevant to compose-file
detection; `services` is what `config --services` lists; the `Before`/`After`
families describe the container listings and image resolutions at the two
snapshots; `captureBeforeOk`/`captureAfterOk` model the `if ! capture_images`
guards (updater.sh lines 467, 528); `pullExit`/`upExit` are the exit statuses
the pull and up commands would return were they executed; `healthContainers`
is the container listing `healthcheck_project` sees. -/
structure ProjectEnv where
  files : List String
  services : List String
  containersBefore : String → List String
  imageBefore : String → String
  captureBeforeOk : Bool
  pullExit : Nat
  upExit : Nat
  containersAfter : String → List String
  imageAfter : String → String
  captureAfterOk : Bool
  healthContainers : Option (List Container)

/-- The before-snapshot of a project (updater.sh lines 465-477). -/
def beforeSnap (e : ProjectEnv) : List (String × String) :=
  capture_images e.services e.containersBefore e.imageBefore

/-- The after-snapshot of a project (updater.sh lines 526-538). -/
def afterSnap (e : ProjectEnv) : List (String × String) :=
  capture_images e.services e.containersAfter e.imageAfter

/-- Whether an explicit `compose pull` step runs (updater.sh lines 480-488):
skipped when `PULL_POLICY` is `never`, and when it is `missing` while the
compose tool supports `--pull` natively; otherwise performed. -/
def do_explicit_pull (cfg : Config) (supportsPullPolicy : Bool) : Bool :=
  if cfg.PULL_POLICY == "never" then false
  else if cfg.PULL_POLICY == "missing" && supportsPullPolicy then false
  else true

/-- Terminal record of one candidate directory in the main loop: `skipped`
when the directory holds no recognized compose file (updater.sh line 447),
otherwise `done changed failed` — `changed` says whether the project was
appended to `changed_projects` and `failed` whether it was appended to
`failed_projects`. -/
inductive ProjResult where
  | skipped
  | done (changed : Bool) (failed : Bool)
deriving Repr, DecidableEq

/-- The body of the main per-project loop (updater.sh lines 445-561) for one
candidate directory, also returning the mutating commands actually executed.
The `run` wrapper (lines 203-246) records and, when `DRY_RUN` is `true`, does
*not* execute its command and reports success; hence under dry run the pull
and up steps execute nothing and cannot fail.  Each early failure marks the
project failed and moves on (`continue`).  After the final snapshot the
change flag is computed (lines 541-544) and the healthcheck verdict recorded
(lines 547-550); note the script then *still* appends a changed project to
`changed_projects` (lines 552-557). -/
def processProject (cfg : Config) (supportsPullPolicy : Bool) (e : ProjectEnv) :
    ProjResult × List String :=
  match get_compose_file e.files with
  | none => (ProjResult.skipped, [])
  | some _ =>
    if !e.captureBeforeOk then (ProjResult.done false true, [])
    else
      let dry := cfg.DRY_RUN == "true"
      let pullPlanned := do_explicit_pull cfg supportsPullPolicy
      let pullExec : List String := if pullPlanned && !dry then ["compose pull"] else []
      if pullPlanned && !dry && e.pullExit != 0 then (ProjResult.done false true, pullExec)
      else
        let exec := pullExec ++ (if !dry then ["compose up"] else [])
        if !dry && e.upExit != 0 then (ProjResult.done false true, exec)
        else if !e.captureAfterOk then (ProjResult.done false true, exec)
        else
          let changed := computeChanged (beforeSnap e) (afterSnap e)
          let healthOk := healthcheck_project e.healthContainers
          (ProjResult.done changed (!healthOk), exec)

/-- One discovered project's terminal bookkeeping: the directory (the script's
`project_key`), whether it ended in `changed_projects`, and whether it ended
in `failed_projects`. -/
structure ProjOutcome where
  dir : String
  changed : Bool
  failed : Bool
deriving Repr, DecidableEq

/-- The main loop over the candidate directories (updater.sh lines 445-561),
bookkeeping view: skipped directories leave no record; every directory with a
compose file produces exactly one `ProjOutcome`, in processing order. -/
def loopOutcomes (cfg : Config) (supportsPullPolicy : Bool) (env : String → ProjectEnv) :
    List String → List ProjOutcome
  | [] => []
  | d :: rest =>
    match (processProject cfg supportsPullPolicy (env d)).1 with
    | ProjResult.skipped => loopOutcomes cfg supportsPullPolicy env rest
    | ProjResult.done c f => ⟨d, c, f⟩ :: loopOutcomes cfg supportsPullPolicy env rest

/-- The main loop over the candidate directories, command view: the mutating
commands executed across all projects, in order. -/
def loopExec (cfg : Config) (supportsPullPolicy : Bool) (env : String → ProjectEnv) :
    List String → List String
  | [] => []
  | d :: rest =>
    (processProject cfg supportsPullPolicy (env d)).2 ++
      loopExec cfg supportsPullPolicy env rest

/-- The `changed_projects` array reconstructed from the outcomes (appended in
processing order, one entry per changed project). -/
def changedOf (os : List ProjOutcome) : List String :=
  (os.filter (fun o => o.changed)).map (fun o => o.dir)

/-- The `failed_projects` array reconstructed from the outcomes (each project
is appended at most once: every failure path either `continue`s or is the
single healthcheck append). -/
def failedOf (os : List ProjOutcome) : List String :=
  (os.filter (fun o => o.failed)).map (fun o => o.dir)

/-- The `project_order` array: every candidate directory that had a compose
file, in processing order. -/
def discoveredOf (os : List ProjOutcome) : List String :=
  os.map (fun o => o.dir)

/-- The prune commands the post-run maintenance executes (updater.sh lines
567-577), gated by `PRUNE_ENABLED == true` and `DRY_RUN != true`. -/
def pruneCommands (cfg : Config) : List String :=
  if cfg.PRUNE_ENABLED == "true" && !(cfg.DRY_RUN == "true") then
    if !(cfg.PRUNE_FILTER_UNTIL == "") then ["docker image prune"]
    else if cfg.PRUNE_VOLUMES == "true" then ["docker system prune --volumes"]
    else ["docker system prune"]
  else []

/-- External inputs of one invocation: whether another run already holds the
lock (`flock -n` fails, updater.sh line 91), the content of the explicit
project-list file (`none` when it is not readable, line 395), the directory
listing the `find` invocation prints in scan mode, and the per-directory
runtime observations. -/
structure RunInput where
  lockHeld : Bool
  projectsFileContent : Option (List String)
  /-- The directories the `find` invocation prints in scan mode, after its
  own `-path "*/pat"` glob pruning (see `scanProjects`). -/
  allDirs : List String
  env : String → ProjectEnv

/-- Project collection (updater.sh lines 393-431): explicit-list mode when
`COMPOSE_PROJECTS_FILE` is nonempty — dying with `die` (exit 1) when the file
is unreadable (line 403) — and filesystem-scan mode otherwise. -/
def collectProjects (cfg : Config) (inp : RunInput) : Except Nat (List String) :=
  if !(cfg.COMPOSE_PROJECTS_FILE == "") then
    match inp.projectsFileContent with
    | some lines => Except.ok (parseProjectLines lines)
    | none => Except.error 1
  else
    Except.ok (scanProjects inp.allDirs (excludePatterns cfg))

/-- Observable result of one invocation.  `ranLoop` records whether control
reached the per-project update loop; on the early exits (lock busy, fatal
discovery errors) it is `false` and the outcome list is empty. -/
structure RunResult where
  exitCode : Nat
  ranLoop : Bool
  outcomes : List ProjOutcome
  executedMutating : List String
deriving Repr, DecidableEq

/-- The `changed_projects` of a finished run. -/
def RunResult.changedProjects (r : RunResult) : List String :=
  changedOf r.outcomes

/-- The `failed_projects` of a finished run. -/
def RunResult.failedProjects (r : RunResult) : List String :=
  failedOf r.outcomes

/-- The discovered projects (the script's `project_order`) of a finished
run. -/
def RunResult.discovered (r : RunResult) : List String :=
  discoveredOf r.outcomes

/-- The whole invocation (updater.sh lines 89-94, 392-433, 445-577, 583-588,
706-710): lock check, project collection with its two fatal `die` paths
(unreadable explicit list, empty candidate list at line 433), the main loop,
the log-retention and prune maintenance, then the summary stage.

The summary stage begins with the display-name counting loop (lines 583-588),
which iterates over `${!project_display_names[@]}` — one key per discovered
project (line 457).  Its body `(( display_name_counts[$_name]++ ))`
post-increments an element that is unset on the first iteration: the
arithmetic expression evaluates to the old value 0, the arithmetic command
returns status 1, and under `set -Eeuo pipefail` (line 8, no ERR trap, not in
a condition) errexit terminates the script with exit status 1.  Hence every
run that discovered at least one project aborts there, after the loop and the
maintenance commands but before the email and the final exit; the final exit
of lines 706-710 — `2` when `failed_count > 0`, else `0` — is reached only
when zero projects were discovered (in which case the failed set is also
empty and the exit status is `0`). -/
def mainRun (cfg : Config) (supportsPullPolicy : Bool) (inp : RunInput) : RunResult :=
  if inp.lockHeld then
    { exitCode := 0, ranLoop := false, outcomes := [], executedMutating := [] }
  else
    match collectProjects cfg inp with
    | Except.error n =>
      { exitCode := n, ranLoop := false, outcomes := [], executedMutating := [] }
    | Except.ok dirs =>
      if dirs.isEmpty then
        { exitCode := 1, ranLoop := false, outcomes := [], executedMutating := [] }
      else
        let os := loopOutcomes cfg supportsPullPolicy inp.env dirs
        { exitCode :=
            if os.isEmpty then (if (failedOf os).length > 0 then 2 else 0) else 1,
          ranLoop := true,
          outcomes := os,
          executedMutating := loopExec cfg supportsPullPolicy inp.env dirs ++
            pruneCommands cfg }

/-- The projects of a run classified unchanged in the sense of the spec:
discovered but in neither the changed nor the failed tally. -/
def unchangedProjects (r : RunResult) : List String :=
  (RunResult.discovered r).filter (fun d =>
    !((RunResult.changedProjects r).contains d) &&
    !((RunResult.failedProjects r).contains d))

/-- Modelled from the spec: the exclusion rule as §4.2 words it — a directory
is excluded when its path matches a configured pattern as a path-segment
match (one of its `/`-separated segments equals the pattern) or its base name
equals the pattern.  Written only for comparison with the script's
`is_excluded`. -/
def specExcluded (dir : String) (patterns : List String) : Bool :=
  patterns.any (fun p =>
    !(p == "") && ((splitSegs dir.data).contains p.data || basename dir == p))

/-! ## Concrete fixtures

Small concrete configurations and runtime observations used to instantiate
the theorems below on explicit inputs. -/

/-- The all-defaults configuration (no configuration file present). -/
def baseCfg : Config := loadConfig (fun _ => none)

/-- Defaults, but with an explicit project-list file configured. -/
def cfgList : Config := { baseCfg with COMPOSE_PROJECTS_FILE := "/etc/projects.list" }

/-- `cfgList` with dry-run enabled. -/
def cfgDry : Config := { cfgList with DRY_RUN := "true" }

/-- A project whose single service moves to a new image but whose single
container (without a healthcheck) is left restarting: classified changed and
failing the healthcheck. -/
def envChangedUnhealthy : ProjectEnv where
  files := ["compose.yaml"]
  services := ["web"]
  containersBefore := fun _ => ["c"]
  imageBefore := fun _ => "sha256:old"
  captureBeforeOk := true
  pullExit := 0
  upExit := 0
  containersAfter := fun _ => ["c"]
  imageAfter := fun _ => "sha256:new"
  captureAfterOk := true
  healthContainers := some [⟨"none", "restarting"⟩]

/-- A directory without any recognized compose file. -/
def envNoCompose : ProjectEnv where
  files := []
  services := []
  containersBefore := fun _ => []
  imageBefore := fun _ => ""
  captureBeforeOk := true
  pullExit := 0
  upExit := 0
  containersAfter := fun _ => []
  imageAfter := fun _ => ""
  captureAfterOk := true
  healthContainers := none

/-- A project whose snapshots are identical (no containers at either
snapshot) and whose healthcheck sees an empty container listing. -/
def envEmptyContainers : ProjectEnv where
  files := ["compose.yaml"]
  services := ["web"]
  containersBefore := fun _ => []
  imageBefore := fun _ => ""
  captureBeforeOk := true
  pullExit := 0
  upExit := 0
  containersAfter := fun _ => []
  imageAfter := fun _ => ""
  captureAfterOk := true
  healthContainers := some []

/-- A fully successful project: image reference unchanged across the
snapshots and a single healthy container. -/
def envHealthyUnchanged : ProjectEnv where
  files := ["compose.yaml"]
  services := ["web"]
  containersBefore := fun _ => ["c"]
  imageBefore := fun _ => "sha256:same"
  captureBeforeOk := true
  pullExit := 0
  upExit := 0
  containersAfter := fun _ => ["c"]
  imageAfter := fun _ => "sha256:same"
  captureAfterOk := true
  healthContainers := some [⟨"healthy", "running"⟩]

/-- Explicit-list run with one changed-but-unhealthy project. -/
def inpOneChangedUnhealthy : RunInput where
  lockHeld := false
  projectsFileContent := some ["/apps/alpha"]
  allDirs := []
  env := fun _ => envChangedUnhealthy

/-- Explicit-list run with one project on which every step succeeds. -/
def inpOneHealthy : RunInput where
  lockHeld := false
  projectsFileContent := some ["/apps/alpha"]
  allDirs := []
  env := fun _ => envHealthyUnchanged

/-- Explicit-list run with one project whose healthcheck sees no
containers. -/
def inpOneEmptyContainers : RunInput where
  lockHeld := false
  projectsFileContent := some ["/apps/alpha"]
  allDirs := []
  env := fun _ => envEmptyContainers

/-- Filesystem-scan run over a base directory containing no compose file
anywhere: the scan yields the base directory itself as the only candidate. -/
def inpScanNoCompose : RunInput where
  lockHeld := false
  projectsFileContent := none
  allDirs := ["/srv/compose"]
  env := fun _ => envNoCompose

/-- Filesystem-scan run over a nonexistent base directory: `find` produces no
directories at all. -/
def inpScanEmpty : RunInput where
  lockHeld := false
  projectsFileContent := none
  allDirs := []
  env := fun _ => envNoCompose

/-- An invocation arriving while another run holds the lock. -/
def inpLocked : RunInput where
  lockHeld := true
  projectsFileContent := none
  allDirs := ["/srv/compose"]
  env := fun _ => envChangedUnhealthy

/-! ## Supporting lemmas -/

/-- `leadsWith` decides the initial-segment relation. -/
theorem leadsWith_iff (p : List Char) : ∀ l, leadsWith p l = true ↔ ∃ r, l = p ++ r := by
  induction p with
  | nil => intro l; simp [leadsWith]
  | cons a as ih =>
    intro l
    cases l with
    | nil => simp [leadsWith]
    | cons b bs =>
      simp only [leadsWith, Bool.and_eq_true, beq_iff_eq, ih, List.cons_append,
        List.cons.injEq]
      constructor
      · rintro ⟨rfl, r, rfl⟩; exact ⟨r, rfl, rfl⟩
      · rintro ⟨r, rfl, rfl⟩; exact ⟨rfl, r, rfl⟩

/-- `containsSeq` decides substring occurrence. -/
theorem containsSeq_iff (p : List Char) : ∀ l,
    containsSeq p l = true ↔ ∃ pre post, l = pre ++ p ++ post := by
  intro l
  induction l with
  | nil =>
    simp only [containsSeq, List.isEmpty_iff]
    constructor
    · rintro rfl; exact ⟨[], [], rfl⟩
    · rintro ⟨pre, post, h⟩
      rcases List.append_eq_nil.mp h.symm with ⟨h1, h2⟩
      exact (List.append_eq_nil.mp h1).2
  | cons c rest ih =>
    simp only [containsSeq, Bool.or_eq_true, leadsWith_iff, ih]
    constructor
    · rintro (⟨r, hr⟩ | ⟨pre, post, hp⟩)
      · exact ⟨[], r, by simp [hr]⟩
      · exact ⟨c :: pre, post, by simp [hp]⟩
    · rintro ⟨pre, post, hp⟩
      cases pre with
      | nil => exact Or.inl ⟨post, by simpa using hp⟩
      | cons x xs =>
        right
        injection hp with h1 h2
        exact ⟨xs, post, h2⟩

/-- For a configured nonempty pattern taken literally, every directory the
`find` invocation prunes (its path ends in `/pat`), and every directory
below such a directory (its path contains `/pat/`), is also rejected by
`is_excluded`: any literal occurrence of `/pat` in the path suffices.  This
makes `find`'s pruning redundant for metacharacter-free patterns; it says
nothing about patterns containing glob metacharacters, where `find` can
prune paths this substring test keeps. -/
theorem find_prune_subsumed (dir : String) (p : String) (patterns : List String)
    (hp : p ∈ patterns) (hne : p ≠ "")
    (h : ∃ pre post, dir.data = pre ++ ('/' :: p.data) ++ post) :
    is_excluded dir patterns = true := by
  have hdata : ("/" ++ p).data = '/' :: p.data := rfl
  simp only [is_excluded, List.any_eq_true]
  refine ⟨p, hp, ?_⟩
  have hc : strContains dir ("/" ++ p) = true := by
    unfold strContains
    rw [hdata, containsSeq_iff]
    exact h
  simp [hc, hne]

/-- Folding the lookup step over a snapshot whose value is a function of the
key resolves to that function on any key present. -/
theorem lookupSnap_foldl (g : String → String) (l : List String) (s : String) :
    ∀ acc : Option String,
      ((l.map (fun x => (x, g x))).foldl
        (fun acc kv => if kv.1 == s then some kv.2 else acc) acc)
        = if s ∈ l then some (g s) else acc := by
  induction l with
  | nil => intro acc; simp
  | cons a l ih =>
    intro acc
    simp only [List.map_cons, List.foldl_cons, ih]
    by_cases h : s ∈ l
    · simp [h]
    · by_cases h2 : (a == s) = true
      · have ha : a = s := beq_iff_eq.mp h2
        simp [h, h2, ha]
      · have ha : ¬ s = a := fun hh => h2 (beq_iff_eq.mpr hh.symm)
        simp [h, h2, List.mem_cons, ha]

/-- Looking a service up in a `capture_images` snapshot yields that service's
comparison key. -/
theorem lookupSnap_capture (services : List String) (c : String → List String)
    (i : String → String) (s : String) (h : s ∈ services) :
    lookupSnap (capture_images services c i) s = captureKey (c s) i := by
  unfold lookupSnap capture_images
  rw [lookupSnap_foldl (fun x => captureKey (c x) i) services s none]
  simp [h]

/-- A service with no entry in a snapshot reads as the empty string. -/
theorem lookupSnap_eq_empty : ∀ (snap : List (String × String)) (s : String),
    (∀ v, (s, v) ∉ snap) → lookupSnap snap s = "" := by
  have aux : ∀ (snap : List (String × String)) (s : String),
      (∀ v, (s, v) ∉ snap) →
      snap.foldl (fun acc kv => if kv.1 == s then some kv.2 else acc)
        (none : Option String) = none := by
    intro snap s
    induction snap with
    | nil => intro _; rfl
    | cons kv rest ih =>
      intro h
      have hk : ¬ (kv.1 == s) = true := by
        intro hb
        have hks : kv.1 = s := beq_iff_eq.mp hb
        exact h kv.2 (by rw [← hks]; exact List.mem_cons_self _ _)
      simp only [List.foldl_cons, if_neg hk]
      exact ih (fun v hv => h v (List.mem_cons_of_mem _ hv))
  intro snap s h
  unfold lookupSnap
  rw [aux snap s h]
  rfl

/-- Classification over two snapshots of the same service list: the project
is flagged changed exactly when some service's comparison key differs between
the two captures. -/
theorem computeChanged_capture_iff (svcs : List String) (cB : String → List String)
    (iB : String → String) (cA : String → List String) (iA : String → String) :
    computeChanged (capture_images svcs cB iB) (capture_images svcs cA iA) = true ↔
      ∃ s ∈ svcs, captureKey (cB s) iB ≠ captureKey (cA s) iA := by
  unfold computeChanged
  have hmap : (capture_images svcs cA iA).map Prod.fst = svcs := by
    unfold capture_images
    rw [List.map_map]
    exact List.map_id svcs
  rw [hmap, List.any_eq_true]
  constructor
  · rintro ⟨s, hs, hne⟩
    refine ⟨s, hs, ?_⟩
    rw [lookupSnap_capture _ _ _ _ hs, lookupSnap_capture _ _ _ _ hs] at hne
    simpa using hne
  · rintro ⟨s, hs, hne⟩
    refine ⟨s, hs, ?_⟩
    rw [lookupSnap_capture _ _ _ _ hs, lookupSnap_capture _ _ _ _ hs]
    simpa using hne

/-- A service absent from the before-snapshot whose after-snapshot key is
nonempty flags a change. -/
theorem computeChanged_of_new (before after : List (String × String)) (s : String)
    (hmem : s ∈ after.map Prod.fst) (habs : ∀ v, (s, v) ∉ before)
    (hne : lookupSnap after s ≠ "") : computeChanged before after = true := by
  unfold computeChanged
  rw [List.any_eq_true]
  refine ⟨s, hmem, ?_⟩
  rw [lookupSnap_eq_empty before s habs]
  simpa using (Ne.symm hne)

/-- A bad container (healthcheck defined but not healthy, or no healthcheck
and not running) fails the project healthcheck. -/
theorem healthcheck_false_of_bad (cs : List Container) (c : Container)
    (hc : c ∈ cs) (hbad : containerOk c = false) :
    healthcheck_project (some cs) = false := by
  cases cs with
  | nil => rfl
  | cons a l =>
    unfold healthcheck_project
    by_contra hne
    have hall : (a :: l).all containerOk = true := by
      cases h : (a :: l).all containerOk
      · exact absurd h hne
      · rfl
    have := (List.all_eq_true.mp hall) c hc
    rw [hbad] at this
    exact Bool.false_ne_true this

/-- A directory without a recognized compose file is skipped. -/
theorem processProject_skipped (cfg : Config) (spp : Bool) (e : ProjectEnv)
    (h : get_compose_file e.files = none) :
    (processProject cfg spp e).1 = ProjResult.skipped := by
  simp [processProject, h]

/-- A directory with a compose file always receives a terminal `done`
record. -/
theorem processProject_done (cfg : Config) (spp : Bool) (e : ProjectEnv) (f : String)
    (h : get_compose_file e.files = some f) :
    ∃ c fl, (processProject cfg spp e).1 = ProjResult.done c fl := by
  simp only [processProject, h]
  split
  · exact ⟨_, _, rfl⟩
  · split
    · exact ⟨_, _, rfl⟩
    · split
      · exact ⟨_, _, rfl⟩
      · split
        · exact ⟨_, _, rfl⟩
        · exact ⟨_, _, rfl⟩

/-- Whenever the project healthcheck verdict is negative, a processed
project's failed flag is set — every earlier failure path also sets it, so no
hypothesis about reaching the healthcheck is needed. -/
theorem processProject_failed_of_health (cfg : Config) (spp : Bool) (e : ProjectEnv)
    (ch fl : Bool)
    (h : (processProject cfg spp e).1 = ProjResult.done ch fl)
    (hh : healthcheck_project e.healthContainers = false) : fl = true := by
  rcases hfc : get_compose_file e.files with _ | f
  · simp [processProject, hfc] at h
  · rcases h1 : e.captureBeforeOk with _ | _ <;>
      rcases h2 : do_explicit_pull cfg spp with _ | _ <;>
      rcases h3 : (cfg.DRY_RUN == "true") with _ | _ <;>
      rcases h4 : (e.pullExit != 0) with _ | _ <;>
      rcases h5 : (e.upExit != 0) with _ | _ <;>
      rcases h6 : e.captureAfterOk with _ | _ <;>
      simp [processProject, hfc, h1, h2, h3, h4, h5, h6, hh] at h <;>
      simp_all

/-- Under dry run a processed project executes no mutating command. -/
theorem processProject_exec_dry (cfg : Config) (spp : Bool) (e : ProjectEnv)
    (h : cfg.DRY_RUN = "true") : (processProject cfg spp e).2 = [] := by
  rcases hfc : get_compose_file e.files with _ | f <;>
    rcases h1 : e.captureBeforeOk with _ | _ <;>
    rcases h6 : e.captureAfterOk with _ | _ <;>
    simp [processProject, hfc, h, h1, h6]

/-- Every recorded outcome is the verdict `processProject` returns on its
directory's observations. -/
theorem loopOutcomes_mem (cfg : Config) (spp : Bool) (env : String → ProjectEnv) :
    ∀ (ds : List String) (o : ProjOutcome), o ∈ loopOutcomes cfg spp env ds →
      (processProject cfg spp (env o.dir)).1 = ProjResult.done o.changed o.failed := by
  intro ds
  induction ds with
  | nil => intro o h; simp [loopOutcomes] at h
  | cons d rest ih =>
    intro o h
    unfold loopOutcomes at h
    rcases hp : (processProject cfg spp (env d)).1 with _ | ⟨c, f⟩ <;> rw [hp] at h
    · exact ih o h
    · rcases List.mem_cons.mp h with h1 | h1
      · rw [h1]; exact hp
      · exact ih o h1

/-- The discovered-project list does not depend on the configuration or on
the detected compose capabilities: whether a directory yields an outcome is
decided by its compose file alone. -/
theorem loopOutcomes_dirs_indep (cfg cfg' : Config) (spp spp' : Bool)
    (env : String → ProjectEnv) :
    ∀ ds : List String, discoveredOf (loopOutcomes cfg spp env ds)
      = discoveredOf (loopOutcomes cfg' spp' env ds) := by
  intro ds
  induction ds with
  | nil => rfl
  | cons d rest ih =>
    unfold loopOutcomes
    rcases hfc : get_compose_file (env d).files with _ | f
    · rw [processProject_skipped cfg spp (env d) hfc,
        processProject_skipped cfg' spp' (env d) hfc]
      exact ih
    · obtain ⟨c1, f1, h1⟩ := processProject_done cfg spp (env d) f hfc
      obtain ⟨c2, f2, h2⟩ := processProject_done cfg' spp' (env d) f hfc
      rw [h1, h2]
      simp only [discoveredOf, List.map_cons]
      rw [← discoveredOf, ← discoveredOf, ih]

/-- Under dry run the whole loop executes no mutating command. -/
theorem loopExec_dry (cfg : Config) (spp : Bool) (env : String → ProjectEnv)
    (h : cfg.DRY_RUN = "true") : ∀ ds : List String, loopExec cfg spp env ds = [] := by
  intro ds
  induction ds with
  | nil => rfl
  | cons d rest ih =>
    unfold loopExec
    rw [processProject_exec_dry cfg spp (env d) h, ih]
    rfl

/-- An outcome with the failed flag set places its directory in the
reconstructed `failed_projects`. -/
theorem mem_failedOf (os : List ProjOutcome) (o : ProjOutcome)
    (h : o ∈ os) (hf : o.failed = true) : o.dir ∈ failedOf os := by
  unfold failedOf
  exact List.mem_map.mpr ⟨o, List.mem_filter.mpr ⟨h, hf⟩, rfl⟩

/-- Counting identity over the outcome list: changed plus neither plus failed
equals total plus both. -/
theorem counts_identity (os : List ProjOutcome) :
    (changedOf os).length
      + (os.filter (fun o => !o.changed && !o.failed)).length
      + (failedOf os).length
    = os.length + (os.filter (fun o => o.changed && o.failed)).length := by
  induction os with
  | nil => rfl
  | cons o rest ih =>
    rcases hc : o.changed <;> rcases hf : o.failed <;>
      simp [changedOf, failedOf, List.filter_cons, hc, hf] at ih ⊢ <;> omega

/-- The collection stage only ever aborts with `die`'s exit status 1. -/
theorem collect_error (cfg : Config) (inp : RunInput) (n : Nat)
    (h : collectProjects cfg inp = Except.error n) : n = 1 := by
  unfold collectProjects at h
  rcases hcp : (cfg.COMPOSE_PROJECTS_FILE == "") with _ | _ <;> rw [hcp] at h
  · rcases hpf : inp.projectsFileContent with _ | lines <;> rw [hpf] at h <;> simp at h
    exact h.symm
  · simp at h

/-- Every outcome of a finished run is the verdict `processProject` returns
on that directory's observations. -/
theorem mainRun_outcomes_mem (cfg : Config) (spp : Bool) (inp : RunInput)
    (o : ProjOutcome) (h : o ∈ (mainRun cfg spp inp).outcomes) :
    (processProject cfg spp (inp.env o.dir)).1 = ProjResult.done o.changed o.failed := by
  rcases hl : inp.lockHeld with _ | _
  · rcases hc : collectProjects cfg inp with n | dirs
    · simp [mainRun, hl, hc] at h
    · rcases hd : dirs.isEmpty with _ | _
      · simp only [mainRun, hl, Bool.false_eq_true, if_false, hc, hd] at h
        exact loopOutcomes_mem cfg spp inp.env dirs o h
      · simp [mainRun, hl, hc, hd] at h
  · simp [mainRun, hl] at h

/-! ## Claims -/

/-- Claim C1 (corrected), counterexample: a run with one discovered project
that is changed and then fails its healthcheck records the project in *both*
the changed and the failed tallies — it is not excluded from the changed
tally — so changed + unchanged + failed is 2 while only 1 project was
discovered. -/
theorem c1_counterexample :
    (RunResult.changedProjects (mainRun cfgList true inpOneChangedUnhealthy)).length
        + (unchangedProjects (mainRun cfgList true inpOneChangedUnhealthy)).length
        + (RunResult.failedProjects (mainRun cfgList true inpOneChangedUnhealthy)).length
      ≠ (RunResult.discovered (mainRun cfgList true inpOneChangedUnhealthy)).length
    ∧ "/apps/alpha" ∈ RunResult.changedProjects (mainRun cfgList true inpOneChangedUnhealthy)
    ∧ "/apps/alpha" ∈ RunResult.failedProjects (mainRun cfgList true inpOneChangedUnhealthy) := by
  decide

/-- Claim C1 (amended): every discovered project receives exactly one outcome
record, carrying a changed flag and a failed flag; a project that is changed
and later fails its healthcheck is recorded in both tallies, so the sum of
the changed, unchanged (neither flag) and failed counts equals the number of
discovered projects *plus* the number of projects counted both changed and
failed. -/
theorem c1_amended_classification (cfg : Config) (spp : Bool) (inp : RunInput) :
    (RunResult.discovered (mainRun cfg spp inp)).length
      = (mainRun cfg spp inp).outcomes.length
    ∧ (RunResult.changedProjects (mainRun cfg spp inp)).length
        + ((mainRun cfg spp inp).outcomes.filter (fun o => !o.changed && !o.failed)).length
        + (RunResult.failedProjects (mainRun cfg spp inp)).length
      = (mainRun cfg spp inp).outcomes.length
        + ((mainRun cfg spp inp).outcomes.filter (fun o => o.changed && o.failed)).length := by
  constructor
  · simp [RunResult.discovered, discoveredOf]
  · exact counts_identity (mainRun cfg spp inp).outcomes

/-- Claim C2 (code bug), evaluation at the failing input: a run that
discovers one project on which every step succeeds — snapshots captured,
pull and up successful, image unchanged, container healthy — has an empty
failed set, yet the process exits with status 1, not 0: the display-name
counting loop (updater.sh line 586) post-increments an unseeded counter,
the arithmetic command returns status 1, and errexit aborts the script
before the final exit of lines 706-710, which is unreachable whenever at
least one project is discovered. -/
theorem c2_line586_abort :
    RunResult.discovered (mainRun cfgList true inpOneHealthy) ≠ []
    ∧ RunResult.failedProjects (mainRun cfgList true inpOneHealthy) = []
    ∧ (mainRun cfgList true inpOneHealthy).exitCode = 1 := by
  decide

/-- Claim C3: under dry run the run executes no mutating pull, up or prune
command, while discovery is unaffected: the collected candidates, the
discovered project list and whether the update loop is reached are identical
to the same invocation with dry run off. -/
theorem c3_dry_run (cfg : Config) (spp : Bool) (inp : RunInput)
    (h : cfg.DRY_RUN = "true") :
    (mainRun cfg spp inp).executedMutating = []
    ∧ collectProjects cfg inp = collectProjects { cfg with DRY_RUN := "false" } inp
    ∧ RunResult.discovered (mainRun cfg spp inp)
        = RunResult.discovered (mainRun { cfg with DRY_RUN := "false" } spp inp)
    ∧ (mainRun cfg spp inp).ranLoop
        = (mainRun { cfg with DRY_RUN := "false" } spp inp).ranLoop := by
  refine ⟨?_, rfl, ?_, ?_⟩
  · rcases hl : inp.lockHeld with _ | _
    · rcases hc : collectProjects cfg inp with n | dirs
      · simp [mainRun, hl, hc]
      · rcases hd : dirs.isEmpty with _ | _
        · simp only [mainRun, hl, Bool.false_eq_true, if_false, hc, hd]
          rw [loopExec_dry cfg spp inp.env h dirs]
          simp [pruneCommands, h]
        · simp [mainRun, hl, hc, hd]
    · simp [mainRun, hl]
  · rcases hl : inp.lockHeld with _ | _
    · rcases hc : collectProjects cfg inp with n | dirs
      · have hc2 : collectProjects { cfg with DRY_RUN := "false" } inp
          = Except.error n := hc
        simp [mainRun, hl, hc, hc2, RunResult.discovered]
      · have hc2 : collectProjects { cfg with DRY_RUN := "false" } inp
          = Except.ok dirs := hc
        rcases hd : dirs.isEmpty with _ | _
        · simp only [mainRun, hl, Bool.false_eq_true, if_false, hc, hc2, hd]
          exact loopOutcomes_dirs_indep cfg _ spp spp inp.env dirs
        · simp [mainRun, hl, hc, hc2, hd, RunResult.discovered]
    · simp [mainRun, hl]
  · rcases hl : inp.lockHeld with _ | _
    · rcases hc : collectProjects cfg inp with n | dirs
      · have hc2 : collectProjects { cfg with DRY_RUN := "false" } inp
          = Except.error n := hc
        simp [mainRun, hl, hc, hc2]
      · have hc2 : collectProjects { cfg with DRY_RUN := "false" } inp
          = Except.ok dirs := hc
        rcases hd : dirs.isEmpty with _ | _ <;>
          simp [mainRun, hl, hc, hc2, hd]
    · simp [mainRun, hl]

/-- Witness for C3 at a concrete dry run with one project. -/
theorem c3_dry_run_witness :
    (mainRun cfgDry true inpOneChangedUnhealthy).executedMutating = []
    ∧ collectProjects cfgDry inpOneChangedUnhealthy
        = collectProjects { cfgDry with DRY_RUN := "false" } inpOneChangedUnhealthy
    ∧ RunResult.discovered (mainRun cfgDry true inpOneChangedUnhealthy)
        = RunResult.discovered
            (mainRun { cfgDry with DRY_RUN := "false" } true inpOneChangedUnhealthy)
    ∧ (mainRun cfgDry true inpOneChangedUnhealthy).ranLoop
        = (mainRun { cfgDry with DRY_RUN := "false" } true inpOneChangedUnhealthy).ranLoop :=
  c3_dry_run cfgDry true inpOneChangedUnhealthy (by decide)

/-- Claim C4: over the snapshots `capture_images` produces for the same
service list, the project is flagged changed exactly when some service's
comparison key differs between the before- and after-captures (so it is
unchanged exactly when every key agrees); moreover, over arbitrary snapshot
lists, a service absent from the before-snapshot whose after-snapshot key is
nonempty flags a change. -/
theorem c4_changed_classification :
    (∀ (svcs : List String) (cB : String → List String) (iB : String → String)
        (cA : String → List String) (iA : String → String),
      computeChanged (capture_images svcs cB iB) (capture_images svcs cA iA) = true ↔
        ∃ s ∈ svcs, captureKey (cB s) iB ≠ captureKey (cA s) iA)
    ∧ (∀ (before after : List (String × String)) (s : String),
        s ∈ after.map Prod.fst → (∀ v, (s, v) ∉ before) → lookupSnap after s ≠ "" →
        computeChanged before after = true) :=
  ⟨computeChanged_capture_iff, computeChanged_of_new⟩

/-- Witness for C4: a single service whose image reference moves between the
captures is flagged changed. -/
theorem c4_changed_classification_witness :
    computeChanged
        (capture_images ["web"] (fun _ => ["c"]) (fun _ => "sha256:old"))
        (capture_images ["web"] (fun _ => ["c"]) (fun _ => "sha256:new")) = true :=
  (c4_changed_classification.1 ["web"] (fun _ => ["c"]) (fun _ => "sha256:old")
      (fun _ => ["c"]) (fun _ => "sha256:new")).mpr
    ⟨"web", by decide, by decide⟩

/-- Claim C5: a discovered project one of whose containers violates the
healthcheck requirement — a container with a healthcheck that is not healthy,
or one without a healthcheck that is not running — ends in the failed set,
with no assumption on its changed/unchanged classification. -/
theorem c5_health_failure_recorded (cfg : Config) (spp : Bool) (inp : RunInput)
    (d : String) (cs : List Container) (c : Container)
    (hd : d ∈ RunResult.discovered (mainRun cfg spp inp))
    (hcs : (inp.env d).healthContainers = some cs)
    (hc : c ∈ cs) (hbad : containerOk c = false) :
    d ∈ RunResult.failedProjects (mainRun cfg spp inp) := by
  obtain ⟨o, ho, hod⟩ : ∃ o ∈ (mainRun cfg spp inp).outcomes, o.dir = d := by
    simpa [RunResult.discovered, discoveredOf, List.mem_map] using hd
  have hproc := mainRun_outcomes_mem cfg spp inp o ho
  have hhc : healthcheck_project (inp.env o.dir).healthContainers = false := by
    rw [hod, hcs]
    exact healthcheck_false_of_bad cs c hc hbad
  have hfail : o.failed = true :=
    processProject_failed_of_health cfg spp (inp.env o.dir) o.changed o.failed hproc hhc
  rw [← hod]
  exact mem_failedOf (mainRun cfg spp inp).outcomes o ho hfail

/-- Witness for C5: a restarting container without a healthcheck puts its
project in the failed set. -/
theorem c5_health_failure_recorded_witness :
    "/apps/alpha" ∈ RunResult.failedProjects (mainRun cfgList true inpOneChangedUnhealthy) :=
  c5_health_failure_recorded cfgList true inpOneChangedUnhealthy "/apps/alpha"
    [⟨"none", "restarting"⟩] ⟨"none", "restarting"⟩ (by decide) rfl (by decide) (by decide)

/-- Claim C6 (corrected), counterexample: a filesystem scan whose base
directory contains directories but no compose file anywhere discovers zero
projects, yet the run reaches the update loop and completes with exit status
0 instead of terminating nonzero. -/
theorem c6_counterexample :
    RunResult.discovered (mainRun baseCfg true inpScanNoCompose) = []
    ∧ (mainRun baseCfg true inpScanNoCompose).exitCode = 0
    ∧ (mainRun baseCfg true inpScanNoCompose).ranLoop = true := by
  decide

/-- Claim C6 (amended): the fatal pre-loop exit (status 1) happens exactly
when the *candidate* list is empty — no explicit-list entries, or no
directories survive the scan — or the explicit list file is unreadable; a
nonempty candidate list always reaches the update loop, even when no
candidate contains a compose file. -/
theorem c6_amended_empty_candidates (cfg : Config) (spp : Bool) (inp : RunInput)
    (hlock : inp.lockHeld = false) :
    (collectProjects cfg inp = Except.ok [] →
      (mainRun cfg spp inp).exitCode = 1 ∧ (mainRun cfg spp inp).ranLoop = false)
    ∧ (∀ n, collectProjects cfg inp = Except.error n →
      (mainRun cfg spp inp).exitCode = 1 ∧ (mainRun cfg spp inp).ranLoop = false)
    ∧ (∀ dirs, collectProjects cfg inp = Except.ok dirs → dirs ≠ [] →
      (mainRun cfg spp inp).ranLoop = true) := by
  refine ⟨?_, ?_, ?_⟩
  · intro hc
    simp [mainRun, hlock, hc]
  · intro n hc
    have hn := collect_error cfg inp n hc
    subst hn
    simp [mainRun, hlock, hc]
  · intro dirs hc hne
    have hd : dirs.isEmpty = false := by
      cases dirs with
      | nil => exact absurd rfl hne
      | cons a l => rfl
    simp [mainRun, hlock, hc, hd]

/-- Witness for C6 (amended): a scan over a missing base directory collects
no candidates and the run dies with exit 1 before the loop. -/
theorem c6_amended_empty_candidates_witness :
    (mainRun baseCfg true inpScanEmpty).exitCode = 1
    ∧ (mainRun baseCfg true inpScanEmpty).ranLoop = false :=
  (c6_amended_empty_candidates baseCfg true inpScanEmpty rfl).1 rfl

/-- Claim C7: an invocation that finds the run lock already held exits with
status 0 immediately, processing no project and executing no mutating
command. -/
theorem c7_lock_skip (cfg : Config) (spp : Bool) (inp : RunInput)
    (h : inp.lockHeld = true) :
    (mainRun cfg spp inp).exitCode = 0
    ∧ (mainRun cfg spp inp).ranLoop = false
    ∧ (mainRun cfg spp inp).outcomes = []
    ∧ (mainRun cfg spp inp).executedMutating = [] := by
  simp [mainRun, h]

/-- Witness for C7 on a concrete locked invocation. -/
theorem c7_lock_skip_witness :
    (mainRun baseCfg true inpLocked).exitCode = 0
    ∧ (mainRun baseCfg true inpLocked).ranLoop = false
    ∧ (mainRun baseCfg true inpLocked).outcomes = []
    ∧ (mainRun baseCfg true inpLocked).executedMutating = [] :=
  c7_lock_skip baseCfg true inpLocked rfl

/-- Claim C8 (corrected), counterexample: with pattern `tmp`, the directory
`/srv/tmpfoo` is excluded by the script (its path contains the substring
`/tmp`) although `tmp` is neither one of its path segments nor its base
name, so exclusion is not equivalent to the spec's segment-or-name match. -/
theorem c8_counterexample :
    is_excluded "/srv/tmpfoo" ["tmp"] = true
    ∧ specExcluded "/srv/tmpfoo" ["tmp"] = false := by
  decide

/-- Claim C8 (amended): a directory is excluded if and only if, for some
nonempty configured pattern `p`, the path contains `/p` as a *substring*
(anywhere, not only as a whole path segment) or the directory's base name
equals `p`. -/
theorem c8_amended_exclusion (dir : String) (patterns : List String) :
    is_excluded dir patterns = true ↔
      ∃ p ∈ patterns, p ≠ "" ∧
        ((∃ pre post : List Char, dir.data = pre ++ ('/' :: p.data) ++ post)
          ∨ basename dir = p) := by
  unfold is_excluded
  rw [List.any_eq_true]
  constructor
  · rintro ⟨p, hp, hcond⟩
    refine ⟨p, hp, ?_⟩
    simp only [Bool.and_eq_true, Bool.or_eq_true, Bool.not_eq_true',
      beq_eq_false_iff_ne, beq_iff_eq] at hcond
    obtain ⟨hne, hor⟩ := hcond
    refine ⟨hne, ?_⟩
    rcases hor with hsub | hbn
    · left
      have hdata : ("/" ++ p).data = '/' :: p.data := rfl
      unfold strContains at hsub
      rw [hdata] at hsub
      exact (containsSeq_iff ('/' :: p.data) dir.data).mp hsub
    · right; exact hbn
  · rintro ⟨p, hp, hne, hor⟩
    refine ⟨p, hp, ?_⟩
    simp only [Bool.and_eq_true, Bool.or_eq_true, Bool.not_eq_true',
      beq_eq_false_iff_ne, beq_iff_eq]
    refine ⟨hne, ?_⟩
    rcases hor with hsub | hbn
    · left
      have hdata : ("/" ++ p).data = '/' :: p.data := rfl
      unfold strContains
      rw [hdata]
      exact (containsSeq_iff ('/' :: p.data) dir.data).mpr hsub
    · right; exact hbn

/-- Claim C9 (corrected), counterexample: a configuration file that exists
but cannot be read does not produce a warning-and-defaults run — sourcing it
fails and errexit aborts the whole run with status 1. -/
theorem c9_counterexample :
    loadConfigFile ConfFileState.unreadable = ConfigLoadResult.fatal 1 := rfl

/-- Claim C9 (amended): when no regular file exists at the configured path,
the run warns (`warned = true`) and proceeds non-fatally with the built-in
default for every setting, including the base and log directories; an
existing but unreadable file instead aborts the run (see the
counterexample). -/
theorem c9_amended_defaults :
    loadConfigFile ConfFileState.absent = ConfigLoadResult.loaded true
      { BASE_DIR := "/srv/compose", LOG_DIR := "/var/log/docker-updater",
        LOCK_FILE := "/var/lock/docker-updater.lock", EMAIL_TO := "",
        EMAIL_FROM := "homelab@localhost", SUBJECT_PREFIX := "[docker-updater]",
        DOCKER_TIMEOUT := "120", PRUNE_ENABLED := "false", PRUNE_VOLUMES := "false",
        PRUNE_FILTER_UNTIL := "", ATTACH_LOGS_ON := "changes", QUIET_PULL := "true",
        PULL_POLICY := "always", PARALLEL_PULL := "0", DRY_RUN := "false",
        LOG_RETENTION_DAYS := "14",
        EXCLUDE_PATTERNS_RAW := ".git node_modules backup tmp",
        COMPOSE_PROJECTS_FILE := "", SMTP_CMD := "msmtp", SMTP_ACCOUNT := "default",
        SMTP_READ_ENVELOPE := "true" } := rfl

/-- Claim C10: a discovered project whose healthcheck finds zero containers
is placed in the failed set. -/
theorem c10_empty_containers_failed (cfg : Config) (spp : Bool) (inp : RunInput)
    (d : String)
    (hd : d ∈ RunResult.discovered (mainRun cfg spp inp))
    (hcs : (inp.env d).healthContainers = some []) :
    d ∈ RunResult.failedProjects (mainRun cfg spp inp) := by
  obtain ⟨o, ho, hod⟩ : ∃ o ∈ (mainRun cfg spp inp).outcomes, o.dir = d := by
    simpa [RunResult.discovered, discoveredOf, List.mem_map] using hd
  have hproc := mainRun_outcomes_mem cfg spp inp o ho
  have hhc : healthcheck_project (inp.env o.dir).healthContainers = false := by
    rw [hod, hcs]
    rfl
  have hfail : o.failed = true :=
    processProject_failed_of_health cfg spp (inp.env o.dir) o.changed o.failed hproc hhc
  rw [← hod]
  exact mem_failedOf (mainRun cfg spp inp).outcomes o ho hfail

/-- Witness for C10: identical before/after snapshots, zero containers at
healthcheck — the project is failed and not in the changed tally. -/
theorem c10_empty_containers_failed_witness :
    "/apps/alpha" ∈ RunResult.failedProjects (mainRun cfgList true inpOneEmptyContainers)
    ∧ beforeSnap envEmptyContainers = afterSnap envEmptyContainers
    ∧ "/apps/alpha" ∉ RunResult.changedProjects (mainRun cfgList true inpOneEmptyContainers) :=
  ⟨c10_empty_containers_failed cfgList true inpOneEmptyContainers "/apps/alpha"
      (by decide) rfl,
    by decide, by decide⟩
